import Mathlib

/-
Shallow embedding of the Neon Space Shooter core simulation
(src/index.tsx).  Positions and sizes are modelled as rationals
(JavaScript numbers carrying fractional pixel values), wall-clock
milliseconds as integers, `score`/`level` as naturals, `lives` as an
integer (the code performs an unguarded decrement).  The per-frame
`animate` body (PLAYING branch, src/index.tsx lines 408-492) is
modelled as the function `step`, decomposed into named phase functions
that follow the source's statement order exactly.  Randomness
(Math.random) and the wall clock (Date.now) are supplied through an
explicit `Env` record.
-/

-- The Batteries rational operations are irreducible by default, which
-- blocks kernel evaluation of concrete game states; restore normal
-- reducibility for this verification development.
attribute [local semireducible] Rat.add Rat.mul Rat.inv Rat.sub Rat.ofScientific

-- GameState enum (src/index.tsx lines 6-11)
inductive GameState where
  | START
  | PLAYING
  | GAMEOVER
  | PAUSED
deriving DecidableEq, Repr

-- InputState (src/index.tsx lines 13-17)
structure InputState where
  left : Bool
  right : Bool
  shoot : Bool
deriving DecidableEq, Repr

-- The four audio events accepted by AudioService.playSound
-- (src/index.tsx line 51).
inductive Sound where
  | shoot
  | explosion
  | gameover
  | powerup
deriving DecidableEq, Repr

-- COLORS (src/index.tsx lines 19-27)
namespace COLORS

def blue : String := "#00ffff"

def pink : String := "#ff00ff"

def green : String := "#00ff00"

def red : String := "#ff0000"

def yellow : String := "#ffff00"

def white : String := "#ffffff"

end COLORS

def GAME_WIDTH : ℚ := 800

def GAME_HEIGHT : ℚ := 600

-- Axis-aligned box data shared by every GameObject
-- (src/index.tsx lines 105-120).
structure Box where
  x : ℚ
  y : ℚ
  width : ℚ
  height : ℚ
deriving DecidableEq, Repr

-- checkCollision (src/index.tsx lines 391-398)
def checkCollision (rect1 rect2 : Box) : Bool :=
  decide (rect1.x < rect2.x + rect2.width) &&
  decide (rect1.x + rect1.width > rect2.x) &&
  decide (rect1.y < rect2.y + rect2.height) &&
  decide (rect1.y + rect1.height > rect2.y)

-- Player (src/index.tsx lines 122-143); speed = 8, lastShot = 0.
structure Player where
  x : ℚ
  y : ℚ
  width : ℚ
  height : ℚ
  color : String
  markedForDeletion : Bool
  speed : ℚ
  lastShot : ℤ
deriving DecidableEq, Repr

def Player.new : Player :=
  { x := GAME_WIDTH / 2 - 20, y := GAME_HEIGHT - 60, width := 40, height := 40,
    color := COLORS.blue, markedForDeletion := false, speed := 8, lastShot := 0 }

def Player.toBox (p : Player) : Box := ⟨p.x, p.y, p.width, p.height⟩

-- Horizontal-movement half of Player.update (src/index.tsx lines 131-132).
def Player.move (p : Player) (input : InputState) : Player :=
  let p := if input.left && decide (p.x > 0) then { p with x := p.x - p.speed } else p
  if input.right && decide (p.x < GAME_WIDTH - p.width) then { p with x := p.x + p.speed } else p

-- Projectile (src/index.tsx lines 162-175)
structure Projectile where
  x : ℚ
  y : ℚ
  width : ℚ
  height : ℚ
  color : String
  markedForDeletion : Bool
  speed : ℚ
  isPlayer : Bool
deriving DecidableEq, Repr

def Projectile.new (x y speed : ℚ) (color : String) (isPlayer : Bool) : Projectile :=
  { x := x, y := y, width := 4, height := 12, color := color,
    markedForDeletion := false, speed := speed, isPlayer := isPlayer }

def Projectile.toBox (p : Projectile) : Box := ⟨p.x, p.y, p.width, p.height⟩

def Projectile.update (p : Projectile) : Projectile :=
  let p := { p with y := p.y + p.speed }
  if decide (p.y < -20) || decide (p.y > GAME_HEIGHT + 20) then
    { p with markedForDeletion := true }
  else p

-- Player.update (src/index.tsx lines 130-143): horizontal movement,
-- then, when shooting and the 200ms cooldown has elapsed, two
-- projectiles from the wingtips plus a "shoot" sound; the spawned
-- projectiles are new Projectile(x, y, -12, COLORS.yellow, true)
-- (src/index.tsx lines 411-413).
def Player.update (p : Player) (input : InputState) (now : ℤ) :
    Player × List Projectile × List Sound :=
  let p := Player.move p input
  if input.shoot && decide (now - p.lastShot > 200) then
    ({ p with lastShot := now },
     [Projectile.new p.x p.y (-12) COLORS.yellow true,
      Projectile.new (p.x + p.width) p.y (-12) COLORS.yellow true],
     [Sound.shoot])
  else
    (p, [], [])

-- Enemy (src/index.tsx lines 186-197)
structure Enemy where
  x : ℚ
  y : ℚ
  width : ℚ
  height : ℚ
  color : String
  markedForDeletion : Bool
  type : ℕ
  points : ℕ
  hasPowerup : Bool
deriving DecidableEq, Repr

def Enemy.new (x y : ℚ) (type : ℕ) (hasPowerup : Bool) : Enemy :=
  { x := x, y := y, width := 35, height := 35,
    color := if hasPowerup then "#ffaa00"
             else if type = 1 then COLORS.red
             else if type = 2 then COLORS.pink
             else COLORS.green,
    markedForDeletion := false, type := type,
    points := if type = 1 then 50 else if type = 2 then 30 else 10,
    hasPowerup := hasPowerup }

def Enemy.toBox (e : Enemy) : Box := ⟨e.x, e.y, e.width, e.height⟩

-- Powerup (src/index.tsx lines 230-238)
structure Powerup where
  x : ℚ
  y : ℚ
  width : ℚ
  height : ℚ
  color : String
  markedForDeletion : Bool
deriving DecidableEq, Repr

def Powerup.new (x y : ℚ) : Powerup :=
  { x := x, y := y, width := 20, height := 20, color := "#00ff00",
    markedForDeletion := false }

def Powerup.toBox (p : Powerup) : Box := ⟨p.x, p.y, p.width, p.height⟩

def Powerup.update (p : Powerup) : Powerup :=
  let p := { p with y := p.y + 3 }
  if decide (p.y > GAME_HEIGHT) then { p with markedForDeletion := true } else p

-- Particle (src/index.tsx lines 256-272).  The constructor's two
-- Math.random() velocity draws are supplied as explicit arguments.
structure Particle where
  x : ℚ
  y : ℚ
  width : ℚ
  height : ℚ
  color : String
  markedForDeletion : Bool
  vx : ℚ
  vy : ℚ
  life : ℚ
deriving DecidableEq, Repr

def Particle.new (x y : ℚ) (color : String) (vx vy : ℚ) : Particle :=
  { x := x, y := y, width := 3, height := 3, color := color,
    markedForDeletion := false, vx := vx, vy := vy, life := 1 }

def Particle.update (p : Particle) : Particle :=
  let p := { p with x := p.x + p.vx, y := p.y + p.vy, life := p.life - 4/100 }
  if decide (p.life ≤ 0) then { p with markedForDeletion := true } else p

-- A burst of n particles at (x, y) (the for-loops at src/index.tsx
-- lines 457, 466, 483); velocities come from the environment stream.
def mkParticles (n : ℕ) (x y : ℚ) (color : String) (vel : ℕ → ℚ × ℚ) : List Particle :=
  (List.range n).map fun i => Particle.new x y color (vel i).1 (vel i).2

-- The mutable game world gameRef.current (src/index.tsx lines 347-357).
structure GameWorld where
  player : Player
  projectiles : List Projectile
  enemies : List Enemy
  particles : List Particle
  powerups : List Powerup
  score : ℕ
  lives : ℤ
  level : ℕ
  enemyDir : ℤ

-- External nondeterminism consumed by one frame: Date.now(), the
-- Math.random() draw per enemy deciding enemy fire, the Math.random()
-- draws behind particle velocities, and the Math.floor(random*cols)
-- power-up column of initEnemies.
structure Env where
  now : ℤ
  fireRoll : ℕ → ℚ
  particleVel : ℕ → ℚ × ℚ
  powerupIndex : Fin 8

-- initEnemies (src/index.tsx lines 374-389): 4 rows by 8 columns,
-- startX = (GAME_WIDTH - cols*50)/2, row 0 kind 1, row 1 kind 2,
-- rest kind 3; exactly the powerupIndex column of row 0 carries the drop.
def initEnemies (powerupIndex : Fin 8) : List Enemy :=
  (List.range 4).flatMap fun r =>
    (List.range 8).map fun c =>
      Enemy.new ((GAME_WIDTH - 8 * 50) / 2 + (c : ℚ) * 50) (50 + (r : ℚ) * 50)
        (if r = 0 then 1 else if r = 1 then 2 else 3)
        (decide (r = 0) && decide (c = powerupIndex.val))

-- Per-enemy horizontal translation e.x += (1.5 + score*0.001) * enemyDir
-- (src/index.tsx line 418).
def moveEnemy (score : ℕ) (enemyDir : ℤ) (e : Enemy) : Enemy :=
  { e with x := e.x + (3/2 + (score : ℚ) * (1/1000)) * (enemyDir : ℚ) }

-- Edge test e.x <= 10 || e.x >= GAME_WIDTH - 40 (src/index.tsx line 419).
def atEdge (e : Enemy) : Bool :=
  decide (e.x ≤ 10) || decide (e.x ≥ GAME_WIDTH - 40)

structure EnemyPhaseOut where
  enemies : List Enemy
  hitEdge : Bool
  fired : List Projectile
  reached : ℕ

-- The g.enemies.forEach body (src/index.tsx lines 417-432): move each
-- enemy, accumulate the shared hitEdge flag, fire an enemy projectile
-- when the i-th random draw is below 0.001 + level*0.0002, and count
-- the enemies whose bottom edge reaches the player's y (each of which
-- zeroes lives, requests GAMEOVER and plays "gameover").
def enemyLoop (score : ℕ) (enemyDir : ℤ) (level : ℕ) (playerY : ℚ) (roll : ℕ → ℚ) :
    ℕ → List Enemy → EnemyPhaseOut
  | _, [] => ⟨[], false, [], 0⟩
  | i, e :: rest =>
    let e := moveEnemy score enemyDir e
    let out := enemyLoop score enemyDir level playerY roll (i + 1) rest
    ⟨e :: out.enemies,
     atEdge e || out.hitEdge,
     (if decide (roll i < 1/1000 + (level : ℚ) * (2/10000)) then
        [Projectile.new (e.x + 15) (e.y + 30) 5 COLORS.red false]
      else []) ++ out.fired,
     (if decide (e.y + e.height ≥ playerY) then 1 else 0) + out.reached⟩

-- Edge response (src/index.tsx lines 434-437): one shared direction
-- flip and a 20px step-down for every enemy.
def edgeResponse (hitEdge : Bool) (enemyDir : ℤ) (enemies : List Enemy) :
    ℤ × List Enemy :=
  if hitEdge then (-enemyDir, enemies.map fun e => { e with y := e.y + 20 })
  else (enemyDir, enemies)

structure HitOut where
  enemies : List Enemy
  scoreGain : ℕ
  hit : Bool
  powerups : List Powerup
  particles : List Particle
  sounds : List Sound

-- The inner g.enemies.forEach of a player projectile
-- (src/index.tsx lines 449-459): every enemy overlapping p is marked,
-- scores its points, plays "explosion", may drop a powerup at
-- (e.x+5, e.y+5) and spawns 5 particles; p itself is marked when any
-- enemy overlapped (the loop keeps testing p against later enemies).
def playerProjHits (p : Projectile) (vel : ℕ → ℚ × ℚ) : List Enemy → HitOut
  | [] => ⟨[], 0, false, [], [], []⟩
  | e :: rest =>
    let out := playerProjHits p vel rest
    if checkCollision p.toBox e.toBox then
      ⟨{ e with markedForDeletion := true } :: out.enemies,
       e.points + out.scoreGain,
       true,
       (if e.hasPowerup then [Powerup.new (e.x + 5) (e.y + 5)] else []) ++ out.powerups,
       mkParticles 5 e.x e.y e.color vel ++ out.particles,
       Sound.explosion :: out.sounds⟩
    else
      ⟨e :: out.enemies, out.scoreGain, out.hit, out.powerups, out.particles, out.sounds⟩

structure ProjPhaseOut where
  projectiles : List Projectile
  enemies : List Enemy
  score : ℕ
  lives : ℤ
  newPowerups : List Powerup
  newParticles : List Particle
  sounds : List Sound
  over : Bool

-- The g.projectiles.forEach body (src/index.tsx lines 445-473): each
-- projectile advances (possibly marking itself off-screen), then a
-- player projectile is tested against every enemy while an enemy
-- projectile is tested against the player; a player hit decrements
-- lives, plays "explosion", spawns 10 particles and, when lives has
-- dropped to 0 or below, requests GAMEOVER and plays "gameover".
def projPhase (player : Player) (vel : ℕ → ℚ × ℚ) :
    List Projectile → List Enemy → ℕ → ℤ → ProjPhaseOut
  | [], es, sc, lv => ⟨[], es, sc, lv, [], [], [], false⟩
  | p :: rest, es, sc, lv =>
    let p := Projectile.update p
    if p.isPlayer then
      let h := playerProjHits p vel es
      let p := if h.hit then { p with markedForDeletion := true } else p
      let out := projPhase player vel rest h.enemies (sc + h.scoreGain) lv
      ⟨p :: out.projectiles, out.enemies, out.score, out.lives,
       h.powerups ++ out.newPowerups, h.particles ++ out.newParticles,
       h.sounds ++ out.sounds, out.over⟩
    else
      if checkCollision p.toBox player.toBox then
        let p := { p with markedForDeletion := true }
        let lv := lv - 1
        let over1 := decide (lv ≤ 0)
        let out := projPhase player vel rest es sc lv
        ⟨p :: out.projectiles, out.enemies, out.score, out.lives,
         out.newPowerups, mkParticles 10 player.x player.y COLORS.blue vel ++ out.newParticles,
         Sound.explosion :: ((if over1 then [Sound.gameover] else []) ++ out.sounds),
         over1 || out.over⟩
      else
        let out := projPhase player vel rest es sc lv
        ⟨p :: out.projectiles, out.enemies, out.score, out.lives,
         out.newPowerups, out.newParticles, out.sounds, out.over⟩

structure PowerupPhaseOut where
  powerups : List Powerup
  lives : ℤ
  newParticles : List Particle
  sounds : List Sound

-- The g.powerups.forEach body (src/index.tsx lines 475-485): each
-- powerup advances, and on overlap with the player is marked, gives a
-- life capped at 5, plays "powerup" and spawns 8 particles.
def powerupPhase (player : Player) (vel : ℕ → ℚ × ℚ) :
    List Powerup → ℤ → PowerupPhaseOut
  | [], lv => ⟨[], lv, [], []⟩
  | pu :: rest, lv =>
    let pu := Powerup.update pu
    if checkCollision pu.toBox player.toBox then
      let pu := { pu with markedForDeletion := true }
      let out := powerupPhase player vel rest (min (lv + 1) 5)
      ⟨pu :: out.powerups, out.lives,
       mkParticles 8 player.x player.y COLORS.green vel ++ out.newParticles,
       Sound.powerup :: out.sounds⟩
    else
      let out := powerupPhase player vel rest lv
      ⟨pu :: out.powerups, out.lives, out.newParticles, out.sounds⟩

structure StepResult where
  world : GameWorld
  gameState : GameState
  sounds : List Sound

-- Phase 1: player movement and fire (src/index.tsx lines 411-413).
def stepPlayerOut (w : GameWorld) (input : InputState) (env : Env) :
    Player × List Projectile × List Sound :=
  Player.update w.player input env.now

-- Phase 2: enemy movement, edge detection, enemy fire, row reach
-- (src/index.tsx lines 416-432).
def stepEnemyOut (w : GameWorld) (input : InputState) (env : Env) : EnemyPhaseOut :=
  enemyLoop w.score w.enemyDir w.level (stepPlayerOut w input env).1.y env.fireRoll 0 w.enemies

-- Phase 3: shared direction flip and step-down (src/index.tsx lines 434-437).
def stepEdge (w : GameWorld) (input : InputState) (env : Env) : ℤ × List Enemy :=
  edgeResponse (stepEnemyOut w input env).hitEdge w.enemyDir (stepEnemyOut w input env).enemies

-- Phase 4: wave completion (src/index.tsx lines 439-443): empty enemy
-- set increments level, awards 1000 and rebuilds the grid.
def stepWave (w : GameWorld) (input : InputState) (env : Env) : ℕ × ℕ × List Enemy :=
  if (stepEdge w input env).2.isEmpty then
    (w.level + 1, w.score + 1000, initEnemies env.powerupIndex)
  else
    (w.level, w.score, (stepEdge w input env).2)

-- Lives as left by the enemy loop: any enemy reaching the player's
-- row sets g.lives = 0 (src/index.tsx line 426).
def stepLivesAfterEnemies (w : GameWorld) (input : InputState) (env : Env) : ℤ :=
  if (stepEnemyOut w input env).reached = 0 then w.lives else 0

-- Phase 5 (src/index.tsx lines 445-473), run on the projectile list
-- containing this frame's player shots and enemy fire.
def stepProjOut (w : GameWorld) (input : InputState) (env : Env) : ProjPhaseOut :=
  projPhase (stepPlayerOut w input env).1 env.particleVel
    ((w.projectiles ++ (stepPlayerOut w input env).2.1) ++ (stepEnemyOut w input env).fired)
    (stepWave w input env).2.2 (stepWave w input env).2.1
    (stepLivesAfterEnemies w input env)

-- Phase 6 (src/index.tsx lines 475-485), run on the powerup list
-- containing powerups dropped this frame.
def stepPowerupOut (w : GameWorld) (input : InputState) (env : Env) : PowerupPhaseOut :=
  powerupPhase (stepPlayerOut w input env).1 env.particleVel
    (w.powerups ++ (stepProjOut w input env).newPowerups)
    (stepProjOut w input env).lives

-- Whether some setGameState(GameState.GAMEOVER) ran during the frame.
def stepOver (w : GameWorld) (input : InputState) (env : Env) : Bool :=
  ((stepEnemyOut w input env).reached != 0) || (stepProjOut w input env).over

-- One full frame of the PLAYING branch of animate
-- (src/index.tsx lines 408-492), ending with the end-of-frame sweep
-- (lines 487-491: filter each collection, then update and filter
-- particles).
def step (w : GameWorld) (input : InputState) (env : Env) : StepResult :=
  { world :=
      { player := (stepPlayerOut w input env).1,
        projectiles := (stepProjOut w input env).projectiles.filter
          (fun p => !p.markedForDeletion),
        enemies := (stepProjOut w input env).enemies.filter
          (fun e => !e.markedForDeletion),
        particles := ((w.particles ++ (stepProjOut w input env).newParticles ++
            (stepPowerupOut w input env).newParticles).map Particle.update).filter
          (fun p => !p.markedForDeletion),
        powerups := (stepPowerupOut w input env).powerups.filter
          (fun p => !p.markedForDeletion),
        score := (stepProjOut w input env).score,
        lives := (stepPowerupOut w input env).lives,
        level := (stepWave w input env).1,
        enemyDir := (stepEdge w input env).1 },
    gameState := if stepOver w input env then GameState.GAMEOVER else GameState.PLAYING,
    sounds := (stepPlayerOut w input env).2.2 ++
      List.replicate (stepEnemyOut w input env).reached Sound.gameover ++
      (stepProjOut w input env).sounds ++
      (stepPowerupOut w input env).sounds }

-- A run: iterate step over a list of per-frame inputs and environments.
def run (w : GameWorld) : List (InputState × Env) → GameWorld
  | [] => w
  | (i, e) :: rest => run (step w i e).world rest

-- Concrete fixtures used by witnesses and counterexamples.
def idleInput : InputState := ⟨false, false, false⟩

def quietEnv : Env :=
  { now := 0, fireRoll := fun _ => 1, particleVel := fun _ => (0, 0), powerupIndex := 3 }

def baseWorld : GameWorld :=
  { player := Player.new, projectiles := [], enemies := [Enemy.new 400 300 3 false],
    particles := [], powerups := [], score := 0, lives := 3, level := 1, enemyDir := 1 }

-- One life left and two enemy projectiles that both overlap the player
-- this frame (enemy projectiles travel +5 per frame; the player box is
-- x in [380, 420], y in [540, 580]).
def doubleHitWorld : GameWorld :=
  { player := Player.new,
    projectiles := [Projectile.new 390 540 5 COLORS.red false,
                    Projectile.new 402 535 5 COLORS.red false],
    enemies := [Enemy.new 400 50 3 false],
    particles := [], powerups := [], score := 0, lives := 1, level := 1, enemyDir := 1 }

-- Two surviving bottom-row enemies whose bottom edge (y + 35) reaches
-- the player's row y = 540 in the same frame.
def doubleRowWorld : GameWorld :=
  { player := Player.new, projectiles := [],
    enemies := [Enemy.new 300 520 3 false, Enemy.new 400 520 3 false],
    particles := [], powerups := [], score := 0, lives := 3, level := 1, enemyDir := 1 }

-- An empty enemy set (cleared last frame) with the pair-mate of the
-- killing shot still in flight where it will overlap the first enemy of
-- the freshly built wave (grid corner (200, 50)) this very frame.
def strayProjWorld : GameWorld :=
  { player := Player.new, projectiles := [Projectile.new 201 70 (-12) COLORS.yellow true],
    enemies := [], particles := [], powerups := [], score := 0, lives := 3, level := 1,
    enemyDir := 1 }

-- An empty enemy set with nothing in flight at all.
def emptyWaveWorld : GameWorld :=
  { player := Player.new, projectiles := [], enemies := [], particles := [], powerups := [],
    score := 0, lives := 3, level := 1, enemyDir := 1 }

/- ------------------------------------------------------------------
Helper lemmas about the phase functions.
------------------------------------------------------------------ -/

theorem filter_all_not {α : Type} (f : α → Bool) (l : List α) :
    ((l.filter fun x => !f x).all fun x => !f x) = true := by
  simp only [List.all_eq_true]
  intro x hx
  exact (List.mem_filter.mp hx).2

theorem projPhase_score_le (player : Player) (vel : ℕ → ℚ × ℚ) (ps : List Projectile) :
    ∀ (es : List Enemy) (sc : ℕ) (lv : ℤ), sc ≤ (projPhase player vel ps es sc lv).score := by
  induction ps with
  | nil => intro es sc lv; simp [projPhase]
  | cons p rest ih =>
    intro es sc lv
    simp only [projPhase]
    split
    · exact le_trans (Nat.le_add_right sc _) (ih _ _ _)
    · split
      · exact ih _ _ _
      · exact ih _ _ _

theorem stepWave_score_le (w : GameWorld) (input : InputState) (env : Env) :
    w.score ≤ (stepWave w input env).2.1 := by
  simp only [stepWave]
  split
  · exact Nat.le_add_right _ _
  · exact le_refl _

theorem step_score_le (w : GameWorld) (input : InputState) (env : Env) :
    w.score ≤ (step w input env).world.score :=
  le_trans (stepWave_score_le w input env)
    (projPhase_score_le _ _ _ _ _ _)

theorem Player.move_lastShot (p : Player) (input : InputState) :
    (Player.move p input).lastShot = p.lastShot := by
  simp only [Player.move]
  split_ifs <;> rfl

theorem Player.move_y (p : Player) (input : InputState) :
    (Player.move p input).y = p.y := by
  simp only [Player.move]
  split_ifs <;> rfl

theorem Player.update_fst_x (p : Player) (input : InputState) (now : ℤ) :
    (Player.update p input now).1.x = (Player.move p input).x := by
  simp only [Player.update]
  split <;> rfl

theorem Player.move_range (p : Player) (input : InputState)
    (hs : p.speed = 8)
    (h0 : 0 ≤ p.x) (h1 : p.x ≤ GAME_WIDTH - p.width) :
    -8 < (Player.move p input).x ∧ (Player.move p input).x < GAME_WIDTH - p.width + 8 := by
  have hG : GAME_WIDTH = 800 := rfl
  simp only [Player.move]
  split_ifs with hA hB hB
  · try dsimp only
    constructor <;> linarith
  · have hx : p.x > 0 := by
      simp only [Bool.and_eq_true, decide_eq_true_eq] at hA
      exact hA.2
    try dsimp only
    constructor <;> linarith
  · have hx : p.x < GAME_WIDTH - p.width := by
      simp only [Bool.and_eq_true, decide_eq_true_eq] at hB
      exact hB.2
    try dsimp only
    constructor <;> linarith
  · try dsimp only
    constructor <;> linarith

/- ------------------------------------------------------------------
Claims.
------------------------------------------------------------------ -/

/-- Claim C9: the AABB overlap test is symmetric: for every pair of
rectangles a and b (arbitrary positions and sizes),
checkCollision a b = checkCollision b a. -/
theorem checkCollision_symmetric (a b : Box) : checkCollision a b = checkCollision b a := by
  have h : ∀ x y : Box, checkCollision x y = true → checkCollision y x = true := by
    intro x y hxy
    simp only [checkCollision, Bool.and_eq_true, decide_eq_true_eq] at hxy ⊢
    obtain ⟨⟨⟨h1, h2⟩, h3⟩, h4⟩ := hxy
    exact ⟨⟨⟨by linarith, by linarith⟩, by linarith⟩, by linarith⟩
  by_cases hab : checkCollision a b = true
  · rw [hab, h a b hab]
  · by_cases hba : checkCollision b a = true
    · exact absurd (h b a hba) hab
    · rw [Bool.not_eq_true] at hab hba
      rw [hab, hba]

/-- Claim C6: after any complete step while PLAYING, every entity
remaining in every collection (enemies, projectiles, powerups,
particles) has markedForDeletion = false: the end-of-frame sweep
removes every marked entity. -/
theorem sweep_invariant (w : GameWorld) (input : InputState) (env : Env) :
    ((step w input env).world.enemies.all fun e => !e.markedForDeletion) = true ∧
    ((step w input env).world.projectiles.all fun p => !p.markedForDeletion) = true ∧
    ((step w input env).world.powerups.all fun p => !p.markedForDeletion) = true ∧
    ((step w input env).world.particles.all fun p => !p.markedForDeletion) = true :=
  ⟨filter_all_not _ _, filter_all_not _ _, filter_all_not _ _, filter_all_not _ _⟩

/-- Claim C2 counterexample: the player-update does NOT clamp x to
[0, GAME_WIDTH - width].  From the in-range position x = 759 (width 40,
so the range is [0, 760]) a right input moves the player to 767,
outside the claimed range: the code only gates the move on
x < GAME_WIDTH - width before adding the full speed of 8. -/
theorem player_clamp_counterexample :
    0 ≤ ({ Player.new with x := 759 } : Player).x ∧
    ({ Player.new with x := 759 } : Player).x ≤
      GAME_WIDTH - ({ Player.new with x := 759 } : Player).width ∧
    ¬ ((Player.update { Player.new with x := 759 }
          { left := false, right := true, shoot := false } 0).1.x ≤
        GAME_WIDTH - ({ Player.new with x := 759 } : Player).width) := by
  decide

/-- Claim C2 (amended): horizontal movement is gated, not clamped: the
player moves left by its speed only when x > 0 and right only when
x < GAME_WIDTH - width; hence from any x in [0, GAME_WIDTH - width]
the post-update x lies strictly within (-8, GAME_WIDTH - width + 8),
but may leave [0, GAME_WIDTH - width] by up to (not including) the
speed of 8. -/
theorem player_update_x_range (p : Player) (input : InputState) (now : ℤ)
    (hs : p.speed = 8)
    (h0 : 0 ≤ p.x) (h1 : p.x ≤ GAME_WIDTH - p.width) :
    -8 < (Player.update p input now).1.x ∧
    (Player.update p input now).1.x < GAME_WIDTH - p.width + 8 := by
  rw [Player.update_fst_x]
  exact Player.move_range p input hs h0 h1

/-- Witness for the amended C2 theorem at the freshly created player. -/
theorem player_update_x_range_witness :
    -8 < (Player.update Player.new idleInput 0).1.x ∧
    (Player.update Player.new idleInput 0).1.x < GAME_WIDTH - Player.new.width + 8 :=
  player_update_x_range Player.new idleInput 0 rfl (by decide) (by decide)

/-- Claim C3 counterexample: at exactly 200ms elapsed since the last
shot (lastShot = 0, now = 200) and shoot held, the claim demands a
shot (at least 200ms elapsed), but the code requires strictly more
than 200ms and produces zero projectiles and no sound. -/
theorem fire_cooldown_boundary_counterexample :
    (200 : ℤ) - Player.new.lastShot ≥ 200 ∧
    (Player.update Player.new { left := false, right := false, shoot := true } 200).2.1 = [] ∧
    (Player.update Player.new { left := false, right := false, shoot := true } 200).2.2 = [] := by
  decide

/-- Claim C3 (amended): with shoot held, the player fires iff STRICTLY
more than 200ms of wall-clock time have elapsed since the last shot; a
shot spawns exactly two player projectiles (one at each wingtip: the
ship's left edge x and right edge x + width), resets the cooldown
timer to now and emits the "shoot" sound; with 200ms or less elapsed
(including exactly 200ms), zero new player projectiles are produced
and the timer is unchanged. -/
theorem fire_cooldown (p : Player) (input : InputState) (now : ℤ)
    (hsh : input.shoot = true) :
    (200 < now - p.lastShot →
      (Player.update p input now).2.1 =
        [Projectile.new (Player.move p input).x (Player.move p input).y (-12) COLORS.yellow true,
         Projectile.new ((Player.move p input).x + (Player.move p input).width)
           (Player.move p input).y (-12) COLORS.yellow true] ∧
      (Player.update p input now).1.lastShot = now ∧
      (Player.update p input now).2.2 = [Sound.shoot]) ∧
    (now - p.lastShot ≤ 200 →
      (Player.update p input now).2.1 = [] ∧
      (Player.update p input now).1.lastShot = p.lastShot ∧
      (Player.update p input now).2.2 = []) := by
  have hls := Player.move_lastShot p input
  constructor
  · intro h
    have hc : (input.shoot && decide (now - (Player.move p input).lastShot > 200)) = true := by
      rw [hsh, hls, Bool.true_and]
      exact decide_eq_true h
    simp only [Player.update, hc, if_true]
    refine ⟨?_, ?_, ?_⟩ <;> trivial
  · intro h
    have hc : (input.shoot && decide (now - (Player.move p input).lastShot > 200)) = false := by
      rw [hsh, hls, Bool.true_and]
      exact decide_eq_false (by omega)
    simp only [Player.update, hc, if_false]
    exact ⟨rfl, hls, rfl⟩

/-- Witness for the amended C3 theorem: a shot 300ms after the last
one produces exactly the two wingtip projectiles. -/
theorem fire_cooldown_witness :
    (Player.update Player.new { left := false, right := false, shoot := true } 300).2.1 =
      [Projectile.new 380 540 (-12) COLORS.yellow true,
       Projectile.new 420 540 (-12) COLORS.yellow true] :=
  ((fire_cooldown Player.new { left := false, right := false, shoot := true } 300 rfl).1
    (by decide)).1

/-- Claim C7: score is monotonically non-decreasing: it never
decreases over a single step, nor across any sequence of steps. -/
theorem score_monotone (w : GameWorld) (frames : List (InputState × Env)) :
    (∀ (input : InputState) (env : Env), w.score ≤ (step w input env).world.score) ∧
    w.score ≤ (run w frames).score := by
  refine ⟨fun input env => step_score_le w input env, ?_⟩
  induction frames generalizing w with
  | nil => exact le_refl _
  | cons f rest ih =>
    exact le_trans (step_score_le w f.1 f.2) (ih (step w f.1 f.2).world)

/-- Claim C10: a player projectile is not retired from collision
testing after its first hit within a frame: the inner enemy loop marks
EVERY enemy the projectile overlaps, adds up ALL their point values,
and reports a hit whenever at least one enemy overlapped. -/
theorem projectile_multi_hit (p : Projectile) (vel : ℕ → ℚ × ℚ) (es : List Enemy) :
    (playerProjHits p vel es).enemies =
      es.map (fun e => if checkCollision p.toBox e.toBox
        then { e with markedForDeletion := true } else e) ∧
    (playerProjHits p vel es).scoreGain =
      ((es.filter fun e => checkCollision p.toBox e.toBox).map Enemy.points).sum ∧
    (playerProjHits p vel es).hit = (es.any fun e => checkCollision p.toBox e.toBox) := by
  induction es with
  | nil => simp [playerProjHits]
  | cons e rest ih =>
    by_cases hc : checkCollision p.toBox e.toBox = true
    · simp [playerProjHits, hc, ih.1, ih.2.1, ih.2.2]
    · rw [Bool.not_eq_true] at hc
      simp [playerProjHits, hc, ih.1, ih.2.1, ih.2.2]

theorem enemyLoop_enemies (score : ℕ) (dir : ℤ) (level : ℕ) (py : ℚ) (roll : ℕ → ℚ)
    (es : List Enemy) :
    ∀ i : ℕ, (enemyLoop score dir level py roll i es).enemies = es.map (moveEnemy score dir) := by
  induction es with
  | nil => intro i; rfl
  | cons e rest ih => intro i; simp [enemyLoop, ih]

theorem enemyLoop_hitEdge (score : ℕ) (dir : ℤ) (level : ℕ) (py : ℚ) (roll : ℕ → ℚ)
    (es : List Enemy) :
    ∀ i : ℕ, (enemyLoop score dir level py roll i es).hitEdge =
      ((es.map (moveEnemy score dir)).any atEdge) := by
  induction es with
  | nil => intro i; rfl
  | cons e rest ih => intro i; simp [enemyLoop, ih]

/-- Claim C5: enemyDir stays in {+1, -1}; it flips (by a single shared
sign change) exactly in the frames in which some enemy, after this
frame's horizontal translation, sits at the left margin (x ≤ 10) or
right margin (x ≥ GAME_WIDTH - 40); on a flip every enemy's y grows by
exactly 20, and in a frame with no enemy at a margin the direction and
every enemy's y are unchanged. -/
theorem enemy_direction_spec (w : GameWorld) (input : InputState) (env : Env)
    (h : w.enemyDir = 1 ∨ w.enemyDir = -1) :
    ((step w input env).world.enemyDir = 1 ∨ (step w input env).world.enemyDir = -1) ∧
    (stepEnemyOut w input env).hitEdge =
      ((w.enemies.map (moveEnemy w.score w.enemyDir)).any atEdge) ∧
    (((w.enemies.map (moveEnemy w.score w.enemyDir)).any atEdge) = true →
      (step w input env).world.enemyDir = -w.enemyDir ∧
      (stepEdge w input env).2 =
        (w.enemies.map (moveEnemy w.score w.enemyDir)).map
          (fun e => { e with y := e.y + 20 })) ∧
    (((w.enemies.map (moveEnemy w.score w.enemyDir)).any atEdge) = false →
      (step w input env).world.enemyDir = w.enemyDir ∧
      (stepEdge w input env).2 = w.enemies.map (moveEnemy w.score w.enemyDir)) := by
  have hdir : (step w input env).world.enemyDir = (stepEdge w input env).1 := rfl
  have hhe : (stepEnemyOut w input env).hitEdge =
      ((w.enemies.map (moveEnemy w.score w.enemyDir)).any atEdge) :=
    enemyLoop_hitEdge w.score w.enemyDir w.level (stepPlayerOut w input env).1.y
      env.fireRoll w.enemies 0
  have hen : (stepEnemyOut w input env).enemies = w.enemies.map (moveEnemy w.score w.enemyDir) :=
    enemyLoop_enemies w.score w.enemyDir w.level (stepPlayerOut w input env).1.y
      env.fireRoll w.enemies 0
  have hedge : stepEdge w input env =
      edgeResponse ((w.enemies.map (moveEnemy w.score w.enemyDir)).any atEdge) w.enemyDir
        (w.enemies.map (moveEnemy w.score w.enemyDir)) := by
    show edgeResponse (stepEnemyOut w input env).hitEdge w.enemyDir
        (stepEnemyOut w input env).enemies = _
    rw [hhe, hen]
  refine ⟨?_, hhe, ?_, ?_⟩
  · rw [hdir, hedge]
    by_cases hb : ((w.enemies.map (moveEnemy w.score w.enemyDir)).any atEdge) = true
    · rw [hb]
      simp only [edgeResponse, if_true]
      rcases h with h | h <;> rw [h] <;> simp
    · rw [Bool.not_eq_true] at hb
      rw [hb]
      simp only [edgeResponse, Bool.false_eq_true, if_false]
      exact h
  · intro hb
    rw [hdir, hedge, hb]
    simp [edgeResponse]
  · intro hb
    rw [hdir, hedge, hb]
    simp [edgeResponse]

/-- Witness for the C5 theorem at a world with one enemy away from
both margins. -/
theorem enemy_direction_spec_witness :
    (step baseWorld idleInput quietEnv).world.enemyDir = 1 ∨
    (step baseWorld idleInput quietEnv).world.enemyDir = -1 :=
  (enemy_direction_spec baseWorld idleInput quietEnv (Or.inl rfl)).1

theorem projPhase_lives_le (player : Player) (vel : ℕ → ℚ × ℚ) (ps : List Projectile) :
    ∀ (es : List Enemy) (sc : ℕ) (lv : ℤ), (projPhase player vel ps es sc lv).lives ≤ lv := by
  induction ps with
  | nil => intro es sc lv; simp [projPhase]
  | cons p rest ih =>
    intro es sc lv
    simp only [projPhase]
    split
    · exact ih _ _ _
    · split
      · exact le_trans (ih _ _ _) (by omega)
      · exact ih _ _ _

theorem projPhase_lives_zero_over (player : Player) (vel : ℕ → ℚ × ℚ) (ps : List Projectile) :
    ∀ (es : List Enemy) (sc : ℕ) (lv : ℤ),
      (projPhase player vel ps es sc lv).lives ≤ 0 →
      (projPhase player vel ps es sc lv).over = true ∨ lv ≤ 0 := by
  induction ps with
  | nil =>
    intro es sc lv h
    right
    simpa [projPhase] using h
  | cons p rest ih =>
    intro es sc lv h
    simp only [projPhase] at h ⊢
    split at h <;> rename_i h1
    · simp only [h1, if_true]
      exact ih _ _ _ h
    · split at h <;> rename_i h2
      · simp only [h1, Bool.false_eq_true, if_false, h2, if_true]
        rcases ih _ _ _ h with hov | hlv
        · left
          simp [hov]
        · left
          have hd : decide ((lv - 1 : ℤ) ≤ 0) = true := decide_eq_true (by omega)
          rw [hd, Bool.true_or]
      · simp only [h1, Bool.false_eq_true, if_false, h2, if_false]
        exact ih _ _ _ h

theorem powerupPhase_lives_le5 (player : Player) (vel : ℕ → ℚ × ℚ) (pus : List Powerup) :
    ∀ lv : ℤ, lv ≤ 5 → (powerupPhase player vel pus lv).lives ≤ 5 := by
  induction pus with
  | nil => intro lv h; simpa [powerupPhase] using h
  | cons pu rest ih =>
    intro lv h
    simp only [powerupPhase]
    split
    · exact ih _ (by omega)
    · exact ih _ h

theorem powerupPhase_lives_zero (player : Player) (vel : ℕ → ℚ × ℚ) (pus : List Powerup) :
    ∀ lv : ℤ, (powerupPhase player vel pus lv).lives ≤ 0 → lv ≤ 0 := by
  induction pus with
  | nil => intro lv h; simpa [powerupPhase] using h
  | cons pu rest ih =>
    intro lv h
    simp only [powerupPhase] at h
    split at h
    · have := ih _ h
      omega
    · exact ih _ h

/-- Claim C1 counterexample: from the well-formed world doubleHitWorld
(lives = 1, within [0,5]) a single step drives lives to -1: both enemy
projectiles overlap the player in the same frame and each hit
decrements lives with no floor at 0. -/
theorem lives_negative_counterexample :
    0 ≤ doubleHitWorld.lives ∧ doubleHitWorld.lives ≤ 5 ∧
    (step doubleHitWorld idleInput quietEnv).world.lives = -1 := by
  decide

/-- Claim C1 (amended): lives never exceeds 5, and in any step in
which lives ends at 0 or below (having been positive before) the game
state transitions to GAMEOVER within that same step; lives can however
drop BELOW 0 when several enemy projectiles hit the player in one
frame, since each hit decrements lives by 1 with no lower clamp. -/
theorem lives_bounds (w : GameWorld) (input : InputState) (env : Env)
    (h5 : w.lives ≤ 5) :
    (step w input env).world.lives ≤ 5 ∧
    ((step w input env).world.lives ≤ 0 →
      w.lives ≤ 0 ∨ (step w input env).gameState = GameState.GAMEOVER) := by
  have hlv2 : stepLivesAfterEnemies w input env ≤ 5 := by
    simp only [stepLivesAfterEnemies]
    split
    · exact h5
    · omega
  have h3 : (stepProjOut w input env).lives ≤ stepLivesAfterEnemies w input env :=
    projPhase_lives_le _ _ _ _ _ _
  have h4 : (stepPowerupOut w input env).lives ≤ 5 :=
    powerupPhase_lives_le5 _ _ _ _ (le_trans h3 hlv2)
  refine ⟨h4, fun h0 => ?_⟩
  have h6 : (stepProjOut w input env).lives ≤ 0 :=
    powerupPhase_lives_zero _ _ _ _ h0
  have hgs : (step w input env).gameState =
      (if stepOver w input env then GameState.GAMEOVER else GameState.PLAYING) := rfl
  have hzo : (stepProjOut w input env).over = true ∨ stepLivesAfterEnemies w input env ≤ 0 :=
    projPhase_lives_zero_over _ _ _ _ _ _ h6
  rcases hzo with hov | hlz
  · right
    have hso : stepOver w input env = true := by
      simp [stepOver, hov]
    rw [hgs, hso]
    rfl
  · by_cases hr : (stepEnemyOut w input env).reached = 0
    · left
      have heq : stepLivesAfterEnemies w input env = w.lives := by
        simp [stepLivesAfterEnemies, hr]
      omega
    · right
      have hso : stepOver w input env = true := by
        simp [stepOver, hr]
      rw [hgs, hso]
      rfl

/-- Witness for the amended C1 theorem at the basic world. -/
theorem lives_bounds_witness :
    (step baseWorld idleInput quietEnv).world.lives ≤ 5 :=
  (lives_bounds baseWorld idleInput quietEnv (by decide)).1

theorem playerUpdate_count_gameover (p : Player) (input : InputState) (now : ℤ) :
    (Player.update p input now).2.2.count Sound.gameover = 0 := by
  simp only [Player.update]
  split
  · rfl
  · rfl

theorem playerProjHits_count_gameover (p : Projectile) (vel : ℕ → ℚ × ℚ) (es : List Enemy) :
    (playerProjHits p vel es).sounds.count Sound.gameover = 0 := by
  induction es with
  | nil => rfl
  | cons e rest ih =>
    simp only [playerProjHits]
    split
    · simp [List.count_cons, ih]
    · exact ih

theorem powerupPhase_count_gameover (player : Player) (vel : ℕ → ℚ × ℚ) (pus : List Powerup) :
    ∀ lv : ℤ, (powerupPhase player vel pus lv).sounds.count Sound.gameover = 0 := by
  induction pus with
  | nil => intro lv; rfl
  | cons pu rest ih =>
    intro lv
    simp only [powerupPhase]
    split
    · simp [List.count_cons, ih]
    · exact ih _

theorem projPhase_over_iff_sound (player : Player) (vel : ℕ → ℚ × ℚ) (ps : List Projectile) :
    ∀ (es : List Enemy) (sc : ℕ) (lv : ℤ),
      ((projPhase player vel ps es sc lv).over = true ↔
        0 < (projPhase player vel ps es sc lv).sounds.count Sound.gameover) := by
  induction ps with
  | nil => intro es sc lv; simp [projPhase]
  | cons p rest ih =>
    intro es sc lv
    simp only [projPhase]
    split
    · simp [List.count_append, playerProjHits_count_gameover, ih]
    · split
      · by_cases hd : ((lv - 1 : ℤ) ≤ 0)
        · have hdt : decide ((lv - 1 : ℤ) ≤ 0) = true := decide_eq_true hd
          have h1 : lv ≤ 1 := by omega
          simp [hdt, List.count_cons, List.count_append, h1]
        · have hdf : decide ((lv - 1 : ℤ) ≤ 0) = false := decide_eq_false hd
          simp [hdf, List.count_cons, ih]
      · simp [ih]

/-- Claim C8 counterexample: in doubleRowWorld both bottom-row enemies
reach the player's row in the same frame, and the single PLAYING to
GAMEOVER transition is accompanied by TWO "gameover" audio events, not
exactly one: the sound is played once per triggering enemy. -/
theorem gameover_sound_twice_counterexample :
    (step doubleRowWorld idleInput quietEnv).gameState = GameState.GAMEOVER ∧
    (step doubleRowWorld idleInput quietEnv).sounds.count Sound.gameover = 2 := by
  decide

/-- Claim C8 (amended): the step transitions to GAMEOVER exactly when
it emits at least one "gameover" audio event; the event is emitted
once per trigger (per enemy reaching the player's row and per hit that
leaves lives at 0 or below), so several simultaneous triggers within
one frame emit several events rather than exactly one. -/
theorem gameover_sound_iff (w : GameWorld) (input : InputState) (env : Env) :
    ((step w input env).gameState = GameState.GAMEOVER ↔
      1 ≤ (step w input env).sounds.count Sound.gameover) := by
  have hgs : (step w input env).gameState =
      (if stepOver w input env then GameState.GAMEOVER else GameState.PLAYING) := rfl
  have hsnd : (step w input env).sounds =
      (stepPlayerOut w input env).2.2 ++
        List.replicate (stepEnemyOut w input env).reached Sound.gameover ++
        (stepProjOut w input env).sounds ++ (stepPowerupOut w input env).sounds := rfl
  have hc1 : (stepPlayerOut w input env).2.2.count Sound.gameover = 0 :=
    playerUpdate_count_gameover _ _ _
  have hc4 : (stepPowerupOut w input env).sounds.count Sound.gameover = 0 :=
    powerupPhase_count_gameover _ _ _ _
  have hiff : ((stepProjOut w input env).over = true ↔
      0 < (stepProjOut w input env).sounds.count Sound.gameover) :=
    projPhase_over_iff_sound _ _ _ _ _ _
  have hover : stepOver w input env =
      (((stepEnemyOut w input env).reached != 0) || (stepProjOut w input env).over) := rfl
  rw [hgs, hsnd, List.count_append, List.count_append, List.count_append, hc1,
    List.count_replicate_self, hc4]
  constructor
  · intro hg
    have hso : stepOver w input env = true := by
      by_contra hne
      rw [Bool.not_eq_true] at hne
      rw [hne] at hg
      exact absurd hg (by decide)
    rw [hover] at hso
    rcases Bool.or_eq_true_iff.mp hso with hr | hb
    · have : (stepEnemyOut w input env).reached ≠ 0 := by
        simpa using hr
      omega
    · have := hiff.mp hb
      omega
  · intro hcount
    have hso : stepOver w input env = true := by
      rw [hover]
      by_cases hr : (stepEnemyOut w input env).reached = 0
      · have hp : 0 < (stepProjOut w input env).sounds.count Sound.gameover := by omega
        rw [hiff.mpr hp]
        simp
      · simp [hr]
    rw [hso]
    rfl

theorem playerUpdate_no_shoot (p : Player) (input : InputState) (now : ℤ)
    (h : input.shoot = false) :
    (Player.update p input now).2.1 = [] := by
  simp [Player.update, h]

theorem initEnemies_unmarked (powerupIndex : Fin 8) :
    ∀ e ∈ initEnemies powerupIndex, e.markedForDeletion = false := by
  intro e he
  simp only [initEnemies, List.mem_flatMap, List.mem_map, List.mem_range] at he
  obtain ⟨r, _, c, _, rfl⟩ := he
  rfl

/-- Claim C4 counterexample: with the enemy set empty at the start of
the step but the pair-mate of the killing shot still in flight, the
step does increment level by 1 and rebuild the wave, but the stray
projectile immediately hits a fresh kind-1 enemy, so score rises by
1050, not by exactly 1000 relative to the pre-clear value of 0. -/
theorem wave_clear_score_counterexample :
    strayProjWorld.enemies = [] ∧
    (step strayProjWorld idleInput quietEnv).world.level = strayProjWorld.level + 1 ∧
    (step strayProjWorld idleInput quietEnv).world.score = 1050 ∧
    strayProjWorld.score + 1000 = 1000 := by
  decide

/-- Claim C4 (amended): a step beginning with an empty enemy set
increments level by exactly 1 and increases score by AT LEAST 1000;
when additionally no projectile is in flight and none is fired that
frame, the score increase is exactly the flat 1000 bonus, the step
yields exactly the fresh non-empty 4x8 wave, and (absent powerups)
lives are unchanged. -/
theorem wave_clear (w : GameWorld) (input : InputState) (env : Env)
    (hE : w.enemies = []) :
    (step w input env).world.level = w.level + 1 ∧
    w.score + 1000 ≤ (step w input env).world.score ∧
    (w.projectiles = [] → input.shoot = false →
      (step w input env).world.score = w.score + 1000 ∧
      (step w input env).world.enemies = initEnemies env.powerupIndex ∧
      (step w input env).world.enemies ≠ [] ∧
      (w.powerups = [] → (step w input env).world.lives = w.lives)) := by
  have hEo : stepEnemyOut w input env = ⟨[], false, [], 0⟩ := by
    show enemyLoop w.score w.enemyDir w.level (stepPlayerOut w input env).1.y
      env.fireRoll 0 w.enemies = _
    rw [hE]
    rfl
  have hEdge : stepEdge w input env = (w.enemyDir, []) := by
    show edgeResponse (stepEnemyOut w input env).hitEdge w.enemyDir
      (stepEnemyOut w input env).enemies = _
    rw [hEo]
    rfl
  have hWave : stepWave w input env =
      (w.level + 1, w.score + 1000, initEnemies env.powerupIndex) := by
    simp only [stepWave, hEdge]
    rfl
  have hlv2 : stepLivesAfterEnemies w input env = w.lives := by
    simp [stepLivesAfterEnemies, hEo]
  have hlevel : (step w input env).world.level = w.level + 1 := by
    show (stepWave w input env).1 = _
    rw [hWave]
  have hscore : w.score + 1000 ≤ (step w input env).world.score := by
    show w.score + 1000 ≤ (stepProjOut w input env).score
    have hge : (stepWave w input env).2.1 ≤ (stepProjOut w input env).score :=
      projPhase_score_le _ _ _ _ _ _
    rw [hWave] at hge
    exact hge
  refine ⟨hlevel, hscore, fun hp hsh => ?_⟩
  have hplayer : (stepPlayerOut w input env).2.1 = [] := playerUpdate_no_shoot _ _ _ hsh
  have hps : ((w.projectiles ++ (stepPlayerOut w input env).2.1) ++
      (stepEnemyOut w input env).fired) = [] := by
    rw [hp, hplayer, hEo]
    rfl
  have hproj : stepProjOut w input env =
      ⟨[], initEnemies env.powerupIndex, w.score + 1000, w.lives, [], [], [], false⟩ := by
    show projPhase (stepPlayerOut w input env).1 env.particleVel
        ((w.projectiles ++ (stepPlayerOut w input env).2.1) ++ (stepEnemyOut w input env).fired)
        (stepWave w input env).2.2 (stepWave w input env).2.1
        (stepLivesAfterEnemies w input env) = _
    rw [hps, hWave, hlv2]
    rfl
  have hscoreEq : (step w input env).world.score = w.score + 1000 := by
    show (stepProjOut w input env).score = _
    rw [hproj]
  have henemies : (step w input env).world.enemies = initEnemies env.powerupIndex := by
    show ((stepProjOut w input env).enemies.filter fun e => !e.markedForDeletion) = _
    rw [hproj]
    apply List.filter_eq_self.mpr
    intro e he
    rw [initEnemies_unmarked env.powerupIndex e he]
    rfl
  have hlen : (initEnemies env.powerupIndex).length = 32 := rfl
  have hne : (step w input env).world.enemies ≠ [] := by
    rw [henemies]
    intro hnil
    rw [hnil] at hlen
    simp at hlen
  refine ⟨hscoreEq, henemies, hne, fun hpw => ?_⟩
  have hpow : stepPowerupOut w input env = ⟨[], w.lives, [], []⟩ := by
    show powerupPhase (stepPlayerOut w input env).1 env.particleVel
        (w.powerups ++ (stepProjOut w input env).newPowerups)
        (stepProjOut w input env).lives = _
    rw [hpw, hproj]
    rfl
  show (stepPowerupOut w input env).lives = w.lives
  rw [hpow]

/-- Witness for the amended C4 theorem: from an empty wave with
nothing in flight, the step awards exactly 1000 and bumps the level. -/
theorem wave_clear_witness :
    (step emptyWaveWorld idleInput quietEnv).world.level = emptyWaveWorld.level + 1 ∧
    (step emptyWaveWorld idleInput quietEnv).world.score = emptyWaveWorld.score + 1000 :=
  ⟨(wave_clear emptyWaveWorld idleInput quietEnv rfl).1,
   ((wave_clear emptyWaveWorld idleInput quietEnv rfl).2.2 rfl rfl).1⟩
